import Mathlib

/-!
Verification development for the autonomous chess-playing client in
src/agen.py.  The Python source is shallowly embedded: each stateful
method becomes a pure Lean function from its inputs (session fields,
global memory, the incoming event, and the responses of the external
collaborators) to its outputs (updated session and memory, the list of
external commands issued, or a raised Python exception).  The chess
library (python-chess) and the Stockfish engine are external
collaborators; their behaviour is a parameter (ChessRules, EngineOutcome,
EvalOutcome) rather than re-implemented.
-/

/-- Python exceptions that the embedded code can raise. -/
inductive PyError
  | typeError
  | attributeError
  | indexError
  deriving DecidableEq

/-- Side colors, as the strings white and black in the source. -/
inductive Color
  | white
  | black
  deriving DecidableEq

/-- Recorded game results, the strings win, loss, draw in BOT_MEMORY. -/
inductive GResult
  | win
  | loss
  | draw
  deriving DecidableEq

/-- A chess.Board.  The source only ever builds a board by replaying a
UCI move list from the start position, so the board is embedded as its
move history; every chess-library query is a function of it. -/
structure Board where
  moves : List String
  deriving DecidableEq

/-- chess.Board() with no arguments: the standard starting position. -/
def startBoard : Board := ⟨[]⟩

/-- board.push_uci(m).  The platform supplies only legal moves, so the
push is modelled total. -/
def pushUci (b : Board) (m : String) : Board := ⟨b.moves ++ [m]⟩

/-- The chess-library queries used by the source, as an abstract
collaborator: is_game_over, result, turn (white = chess.WHITE),
legal_moves, and chess.Move.from_uci (none models the parse raising). -/
structure ChessRules where
  isGameOver : Board → Bool
  result : Board → String
  turn : Board → Color
  legalMoves : Board → List String
  fromUci : String → Option String

/-- Outcome of one interaction with the Stockfish process inside
decide_move: the engine object is None, a call raises, or
get_best_move_time returns (None or a string). -/
inductive EngineOutcome
  | unavailable
  | raises
  | returns (s : Option String)

/-- Outcome of one get_evaluation interaction: engine None, a call
raises, or a centipawn / mate score dictionary. -/
inductive EvalOutcome
  | engineNone
  | raises
  | cp (v : Int)
  | mate (v : Int)

/-- random.choice(l) driven by an arbitrary draw index: any index
selects some element of a non-empty list, and on the empty list the
selection fails (IndexError). -/
def choose {α : Type} (l : List α) (idx : Nat) : Option α :=
  l[idx % l.length]?

/-- StockfishBrain.decide_move (src/agen.py lines 92 to 114): if the
engine is None, random legal move; otherwise ask the engine, and on an
exception, an empty result, or an unparsable result fall back to a
random legal move.  A parsed engine move is returned unchecked. -/
def decide_move (rules : ChessRules) (b : Board) (eng : EngineOutcome)
    (idx : Nat) : Except PyError String :=
  let fallback : Except PyError String :=
    match choose (rules.legalMoves b) idx with
    | some m => Except.ok m
    | none => Except.error PyError.indexError
  match eng with
  | EngineOutcome.unavailable => fallback
  | EngineOutcome.raises => fallback
  | EngineOutcome.returns none => fallback
  | EngineOutcome.returns (some s) =>
      if s = "" then fallback
      else
        match rules.fromUci s with
        | some m => Except.ok m
        | none => fallback

/-- True exactly when decide_move reaches its random fallback for this
engine outcome: engine None, engine exception, empty best move, or a
best move that chess.Move.from_uci rejects. -/
def engineFallsBack (rules : ChessRules) : EngineOutcome → Bool
  | EngineOutcome.unavailable => true
  | EngineOutcome.raises => true
  | EngineOutcome.returns none => true
  | EngineOutcome.returns (some s) =>
      decide (s = "") || (rules.fromUci s).isNone

/-- StockfishBrain.get_evaluation (lines 115 to 130): 0 when the engine
is None or any call raises; mate scores become plus or minus 10000 by
sign; centipawn scores pass through. -/
def get_evaluation : EvalOutcome → Int
  | EvalOutcome.engineNone => 0
  | EvalOutcome.raises => 0
  | EvalOutcome.cp v => v
  | EvalOutcome.mate v => if v > 0 then 10000 else -10000

/-- The per-session state of GameHandler: game id, the board, and the
my_color and opponent_name attributes, which exist only after a
gameFull event has been processed (none models a missing attribute). -/
structure Session where
  gameId : String
  board : Board
  myColor : Option Color
  opponentName : Option String
  deriving DecidableEq

/-- The process-wide BOT_MEMORY dictionary: last_opponent, last_result,
and the conquered_bots set (a Python set, embedded as a duplicate-free
insertion list). -/
structure Memory where
  lastOpponent : Option String
  lastResult : Option GResult
  conqueredBots : List String
  deriving DecidableEq

/-- BOT_MEMORY at process start (lines 50 to 54). -/
def initialMemory : Memory := ⟨none, none, []⟩

/-- One gameState event as consumed by handle_state_change: the full
move list (the moves string already split on whitespace) and the wDraw
and bDraw flags. -/
structure StateUpdate where
  moves : List String
  wDraw : Bool
  bDraw : Bool
  deriving DecidableEq

/-- Responses of the external collaborators during one
handle_state_change call: the evaluation interaction, whether
client.board.accept_draw succeeds, the engine interaction inside
decide_move, and the random draw index. -/
structure Env where
  evalOut : EvalOutcome
  acceptDrawOk : Bool
  engine : EngineOutcome
  pickIdx : Nat

/-- External commands and oracle interactions issued while processing
one state update, in order. -/
inductive AgentAction
  | oracleEval (b : Board)
  | acceptDraw
  | oracleBestMove (b : Board)
  | makeMove (uci : String)
  deriving DecidableEq

/-- Result of one handle_state_change call: the normal outcome (updated
session and memory) or the Python exception that escaped, together with
the trace of external actions already performed. -/
structure HandleResult where
  outcome : Except PyError (Session × Memory)
  actions : List AgentAction

/-- Lines 178 to 183: self.board = chess.Board() followed by push_uci
of every move in the update, i.e. a fresh replay of the full list. -/
def rebuildBoard (st : StateUpdate) : Board :=
  List.foldl pushUci startBoard st.moves

/-- Lines 192 to 213: the BOT_MEMORY update on game over.  1-0 as white
or 0-1 as black is a win (and the opponent joins conquered_bots); 1-0
as black or 0-1 as white is a loss; any other result string is a
draw. -/
def updateMemoryOnGameOver (res : String) (c : Color) (opp : String)
    (mem : Memory) : Memory :=
  let mem1 : Memory := { mem with lastOpponent := some opp }
  if res = "1-0" then
    if c = Color.white then
      { mem1 with lastResult := some GResult.win,
                  conqueredBots := mem1.conqueredBots.insert opp }
    else { mem1 with lastResult := some GResult.loss }
  else if res = "0-1" then
    if c = Color.black then
      { mem1 with lastResult := some GResult.win,
                  conqueredBots := mem1.conqueredBots.insert opp }
    else { mem1 with lastResult := some GResult.loss }
  else { mem1 with lastResult := some GResult.draw }

/-- Lines 244 to 268: turn check (with the getattr default of white for
a missing my_color), the redundant second game-over check, then
decide_move and the make_move command; a platform rejection of the move
is swallowed, but an exception out of decide_move is not. -/
def movePhase (rules : ChessRules) (sess1 : Session) (mem : Memory)
    (board : Board) (env : Env) (acts : List AgentAction) : HandleResult :=
  let isWhiteTurn := rules.turn board == Color.white
  let myColorVal := sess1.myColor.getD Color.white
  let isMyTurn := (myColorVal == Color.white && isWhiteTurn) ||
                  (myColorVal == Color.black && !isWhiteTurn)
  if !isMyTurn then ⟨Except.ok (sess1, mem), acts⟩
  else if rules.isGameOver board then ⟨Except.ok (sess1, mem), acts⟩
  else
    let acts2 := acts ++ [AgentAction.oracleBestMove board]
    match decide_move rules board env.engine env.pickIdx with
    | Except.error e => ⟨Except.error e, acts2⟩
    | Except.ok mv => ⟨Except.ok (sess1, mem), acts2 ++ [AgentAction.makeMove mv]⟩

/-- GameHandler.handle_state_change (lines 176 to 268): rebuild the
board from the full move list; on game over update BOT_MEMORY (only if
the opponent_name attribute exists) and return; otherwise run the
draw-offer logic (the direct self.my_color read raises AttributeError
when the attribute is missing) and then the turn-and-move logic. -/
def handle_state_change (rules : ChessRules) (sess : Session)
    (mem : Memory) (st : StateUpdate) (env : Env) : HandleResult :=
  let board := rebuildBoard st
  let sess1 : Session := { sess with board := board }
  if rules.isGameOver board then
    match sess1.opponentName with
    | some opp =>
        match sess1.myColor with
        | some c =>
            ⟨Except.ok (sess1,
               updateMemoryOnGameOver (rules.result board) c opp mem), []⟩
        | none => ⟨Except.error PyError.attributeError, []⟩
    | none => ⟨Except.ok (sess1, mem), []⟩
  else
    match sess1.myColor with
    | none => ⟨Except.error PyError.attributeError, []⟩
    | some myc =>
        let offering := (myc == Color.black && st.wDraw) ||
                        (myc == Color.white && st.bDraw)
        if offering then
          let cp := get_evaluation env.evalOut
          if cp < 100 then
            if env.acceptDrawOk then
              ⟨Except.ok (sess1, mem),
               [AgentAction.oracleEval board, AgentAction.acceptDraw]⟩
            else
              movePhase rules sess1 mem board env
                [AgentAction.oracleEval board, AgentAction.acceptDraw]
          else movePhase rules sess1 mem board env [AgentAction.oracleEval board]
        else movePhase rules sess1 mem board env []
/-- An online bot as returned by get_online_bots: only the username
field is consumed by the source. -/
structure OnlineBot where
  username : String
  deriving DecidableEq

/-- ASCII lowering of one character, the effect of the Python str.lower
method on the ASCII usernames and ids this program compares.  (The
built-in String.toLower is not used because its byte-level recursion
does not reduce in the kernel.) -/
def pyCharLower (ch : Char) : Char :=
  if 65 ≤ ch.toNat ∧ ch.toNat ≤ 90 then Char.ofNat (ch.toNat + 32)
  else ch

/-- Python str.lower on a string, character by character. -/
def pyLower (s : String) : String := ⟨s.data.map pyCharLower⟩

/-- Python truthiness of an optional string: None and the empty string
are falsy. -/
def pyTruthyStr : Option String → Bool
  | none => false
  | some s => !(s == "")

/-- Lines 307 to 317, revenge mode: when the last game was a loss and
last_opponent is truthy, scan the valid targets for the first bot whose
lowercased username equals the lowercased last opponent. -/
def revengeTarget (mem : Memory) (v : List OnlineBot) : Option String :=
  if mem.lastResult == some GResult.loss then
    match mem.lastOpponent with
    | some lastOpp =>
        if lastOpp == "" then none
        else (v.find? (fun b => pyLower b.username == pyLower lastOpp)).map
               OnlineBot.username
    | none => none
  else none

/-- Line 322: the valid targets whose (exact, case-sensitive) username
is not in conquered_bots. -/
def freshOf (mem : Memory) (v : List OnlineBot) : List OnlineBot :=
  v.filter (fun b => !(mem.conqueredBots.contains b.username))

/-- Line 331: the fresh targets whose lowercased username differs from
the lowercased last opponent. -/
def veryFreshOf (mem : Memory) (v : List OnlineBot) (ignored : String) :
    List OnlineBot :=
  (freshOf mem v).filter
    (fun b => !(pyLower b.username == pyLower ignored))

/-- Lines 319 to 351, conqueror mode: prefer a random bot that is fresh
and not the last opponent, then a random fresh bot, and if no fresh bot
exists a random bot from the full valid list. -/
def conquerorPick (mem : Memory) (v : List OnlineBot) (iA : Nat) :
    Option String :=
  let fresh := freshOf mem v
  if fresh.isEmpty then (choose v iA).map OnlineBot.username
  else
    match mem.lastOpponent with
    | some ignored =>
        if ignored == "" then (choose fresh iA).map OnlineBot.username
        else
          let vf := veryFreshOf mem v ignored
          if vf.isEmpty then (choose fresh iA).map OnlineBot.username
          else (choose vf iA).map OnlineBot.username
    | none => (choose fresh iA).map OnlineBot.username

/-- Lines 305 to 357, target selection of one ChallengeManager.run
iteration: revenge mode first, conqueror mode when it produced nothing
truthy, then the final random fallback when the target is still falsy
and the valid list is non-empty. -/
def selectTarget (mem : Memory) (v : List OnlineBot) (iA iB : Nat) :
    Option String :=
  let t1 := revengeTarget mem v
  let t2 := if pyTruthyStr t1 then t1 else conquerorPick mem v iA
  if pyTruthyStr t2 then t2
  else if v.isEmpty then t2
  else (choose v iB).map OnlineBot.username

/-- Observable outcome of one ChallengeManager.run iteration: the
opponent challenged (if any) and the sleep that follows. -/
structure IterResult where
  challenged : Option String
  sleepSec : Nat
  deriving DecidableEq

/-- Lines 281 to 367, one iteration of ChallengeManager.run: when games
are ongoing, or no online bot other than the agent remains, sleep 60
seconds without challenging; otherwise select a target, challenge it if
truthy, and sleep 45 seconds. -/
def challengeIteration (mem : Memory) (ongoingGames : Nat)
    (onlineBots : List OnlineBot) (myUsername : String) (iA iB : Nat) :
    IterResult :=
  if ongoingGames ≠ 0 then ⟨none, 60⟩
  else
    let validTargets := onlineBots.filter
      (fun b => !(pyLower b.username == pyLower myUsername))
    if validTargets.isEmpty then ⟨none, 60⟩
    else
      let t := selectTarget mem validTargets iA iB
      if pyTruthyStr t then ⟨t, 45⟩ else ⟨none, 45⟩

/-- A Python positional argument as passed to GameHandler: the berserk
client object or a string. -/
inductive PyVal
  | clientObj
  | strVal (s : String)
  deriving DecidableEq

/-- The game_id argument captured by a successful GameHandler.__init__
call. -/
structure HandlerInit where
  gameIdArg : PyVal
  deriving DecidableEq

/-- GameHandler.__init__ (lines 134 to 139) declares exactly one
positional parameter after self (game_id, plus keyword kwargs), so a
call binds one positional argument and any other count raises
TypeError. -/
def gameHandlerInit : List PyVal → Except PyError HandlerInit
  | [v] => Except.ok ⟨v⟩
  | _ => Except.error PyError.typeError

/-- Lines 415 to 418, the gameStart arm of the event router: the source
calls GameHandler(client, game_id), i.e. two positional arguments. -/
def dispatchGameStart (gid : String) : Except PyError HandlerInit :=
  gameHandlerInit [PyVal.clientObj, PyVal.strVal gid]

/-- Line 153, the gameFull arm of GameHandler.run: my_color is white
exactly when the white player id (default empty), lowercased, equals
the literal string surendhan; otherwise black. -/
def assignColor (whiteId : Option String) : Color :=
  if pyLower (whiteId.getD "") == "surendhan" then Color.white
  else Color.black

/-- Concrete chess-library behaviour used by the witnesses: the game
ends after four plies with result 1-0, white moves on even plies, and
a four-character string parses as a move. -/
def toyRules : ChessRules where
  isGameOver b := decide (4 ≤ b.moves.length)
  result b := if 4 ≤ b.moves.length then "1-0" else "*"
  turn b := if b.moves.length % 2 = 0 then Color.white else Color.black
  legalMoves b :=
    if 4 ≤ b.moves.length then []
    else if b.moves.length = 3 then ["g7g8q"] else ["e2e4", "d2d4"]
  fromUci s := if 4 ≤ s.length then some s else none

/-- A session that has processed its gameFull event. -/
def sessionW : Session := ⟨"gid1", startBoard, some Color.white, some "OppBot"⟩

/-- A session that has not yet seen any gameFull event: the my_color
and opponent_name attributes are missing. -/
def sessionNoId : Session := ⟨"gid2", startBoard, none, none⟩

/-- A four-ply update, terminal under toyRules. -/
def stTerm : StateUpdate := ⟨["e2e4", "e7e5", "d1h5", "e8e7"], false, false⟩

/-- A two-ply update, not terminal under toyRules, white to move. -/
def stOpen : StateUpdate := ⟨["e2e4", "e7e5"], false, false⟩

/-- A two-ply update with black offering a draw. -/
def stDrawOffer : StateUpdate := ⟨["e2e4", "e7e5"], false, true⟩

/-- A benign collaborator environment for the witnesses. -/
def envW : Env := ⟨EvalOutcome.cp 100, true, EngineOutcome.raises, 0⟩
/-- On a non-empty list the modelled random.choice yields an element. -/
theorem choose_eq_some_of_ne_nil {α : Type} (l : List α) (idx : Nat)
    (h : l ≠ []) : ∃ a, choose l idx = some a ∧ a ∈ l := by
  have hl : 0 < l.length := List.length_pos.mpr h
  have hlt : idx % l.length < l.length := Nat.mod_lt _ hl
  refine ⟨l[idx % l.length], ?_, List.getElem_mem hlt⟩
  simp [choose, List.getElem?_eq_getElem hlt]

/-- Claim C3: on every position with at least one legal move,
decide_move returns a legal move and never propagates an engine error:
under any engine outcome whose parsed result (if any) is legal, the
returned move is legal, and for a position with exactly one legal move
and an engine that always raises, that one move is returned. -/
theorem decide_move_legal (rules : ChessRules) (b : Board) :
    (∀ (eng : EngineOutcome) (idx : Nat),
       rules.legalMoves b ≠ [] →
       (∀ s m, eng = EngineOutcome.returns (some s) →
          rules.fromUci s = some m → m ∈ rules.legalMoves b) →
       ∃ m, decide_move rules b eng idx = Except.ok m ∧
            m ∈ rules.legalMoves b)
  ∧ (∀ (m : String) (idx : Nat), rules.legalMoves b = [m] →
       decide_move rules b EngineOutcome.raises idx = Except.ok m) := by
  constructor
  · intro eng idx hne hgood
    obtain ⟨a, ha, hmem⟩ := choose_eq_some_of_ne_nil (rules.legalMoves b) idx hne
    cases eng with
    | unavailable => exact ⟨a, by simp [decide_move, ha], hmem⟩
    | raises => exact ⟨a, by simp [decide_move, ha], hmem⟩
    | returns s =>
        cases s with
        | none => exact ⟨a, by simp [decide_move, ha], hmem⟩
        | some str =>
            by_cases hs : str = ""
            · exact ⟨a, by simp [decide_move, hs, ha], hmem⟩
            · cases hp : rules.fromUci str with
              | none => exact ⟨a, by simp [decide_move, hs, hp, ha], hmem⟩
              | some m =>
                  exact ⟨m, by simp [decide_move, hs, hp], hgood str m rfl hp⟩
  · intro m idx hone
    simp [decide_move, choose, hone, Nat.mod_one]

/-- Witness for claim C3: a concrete position with one legal move and a
raising engine, where decide_move returns that move. -/
theorem decide_move_legal_witness :
    decide_move
      ⟨fun _ => false, fun _ => "*", fun _ => Color.white,
       fun _ => ["g7g8q"], fun s => some s⟩
      startBoard EngineOutcome.raises 0 = Except.ok "g7g8q" :=
  (decide_move_legal _ startBoard).2 "g7g8q" 0 rfl


/-- The move phase only appends oracleBestMove and makeMove actions, so
membership of any other action in its trace is membership in the
incoming trace. -/
theorem mem_movePhase_actions (rules : ChessRules) (sess1 : Session)
    (mem : Memory) (board : Board) (env : Env) (acts : List AgentAction)
    (a : AgentAction)
    (h1 : ∀ b, a ≠ AgentAction.oracleBestMove b)
    (h2 : ∀ s, a ≠ AgentAction.makeMove s) :
    (a ∈ (movePhase rules sess1 mem board env acts).actions ↔ a ∈ acts) := by
  simp only [movePhase]
  split
  · simp
  · split
    · simp
    · split <;> simp_all

/-- A normal outcome of the move phase returns the rebuilt session and
the untouched memory. -/
theorem movePhase_ok_inv (rules : ChessRules) (sess1 : Session)
    (mem : Memory) (board : Board) (env : Env) (acts : List AgentAction)
    (s' : Session) (m' : Memory)
    (h : (movePhase rules sess1 mem board env acts).outcome =
           Except.ok (s', m')) : s' = sess1 ∧ m' = mem := by
  simp only [movePhase] at h
  split at h
  · simp only [HandleResult.mk.injEq] at h ⊢
    exact ⟨(Prod.mk.injEq _ _ _ _ ▸ Except.ok.inj h).1.symm,
           (Prod.mk.injEq _ _ _ _ ▸ Except.ok.inj h).2.symm⟩
  · split at h
    · obtain ⟨ha, hb⟩ := Prod.mk.inj (Except.ok.inj h)
      exact ⟨ha.symm, hb.symm⟩
    · split at h
      · simp at h
      · obtain ⟨ha, hb⟩ := Prod.mk.inj (Except.ok.inj h)
        exact ⟨ha.symm, hb.symm⟩

/-- Every normal outcome of handle_state_change carries the freshly
rebuilt session, and its memory is either untouched or is the terminal
update computed from the rebuilt board, the assigned color, and the
stored opponent name. -/
theorem handle_ok_shape (rules : ChessRules) (sess : Session)
    (mem : Memory) (st : StateUpdate) (env : Env) (s' : Session)
    (m' : Memory)
    (h : (handle_state_change rules sess mem st env).outcome =
           Except.ok (s', m')) :
    s' = { sess with board := rebuildBoard st } ∧
    (m' = mem ∨
      (rules.isGameOver (rebuildBoard st) = true ∧ ∃ c opp,
        sess.myColor = some c ∧ sess.opponentName = some opp ∧
        m' = updateMemoryOnGameOver (rules.result (rebuildBoard st))
               c opp mem)) := by
  simp only [handle_state_change] at h
  split at h
  · rename_i hgo
    split at h
    · rename_i opp hopp
      split at h
      · rename_i c hc
        obtain ⟨ha, hb⟩ := Prod.mk.inj (Except.ok.inj h)
        exact ⟨ha.symm, Or.inr ⟨hgo, c, opp, hc, hopp, hb.symm⟩⟩
      · simp at h
    · obtain ⟨ha, hb⟩ := Prod.mk.inj (Except.ok.inj h)
      exact ⟨ha.symm, Or.inl hb.symm⟩
  · split at h
    · simp at h
    · split at h
      · split at h
        · split at h
          · obtain ⟨ha, hb⟩ := Prod.mk.inj (Except.ok.inj h)
            exact ⟨ha.symm, Or.inl hb.symm⟩
          · obtain ⟨ha, hb⟩ := movePhase_ok_inv _ _ _ _ _ _ _ _ h
            exact ⟨ha, Or.inl hb⟩
        · obtain ⟨ha, hb⟩ := movePhase_ok_inv _ _ _ _ _ _ _ _ h
          exact ⟨ha, Or.inl hb⟩
      · obtain ⟨ha, hb⟩ := movePhase_ok_inv _ _ _ _ _ _ _ _ h
        exact ⟨ha, Or.inl hb⟩

/-- Claim C1: on a state update whose rebuilt position is terminal, a
session that knows its color and opponent records exactly one result,
classified relative to its color (1-0 as white or 0-1 as black is a
win, 1-0 as black or 0-1 as white is a loss, anything else a draw),
sets lastOpponent to the opponent, adds the opponent to the conquered
set exactly when the result is a win, performs no external action, and
on a non-terminal update leaves the memory untouched. -/
theorem terminal_memory_update (rules : ChessRules) (sess : Session)
    (mem : Memory) (st : StateUpdate) (env : Env) (c : Color)
    (opp : String) (hc : sess.myColor = some c)
    (hopp : sess.opponentName = some opp) :
    (rules.isGameOver (rebuildBoard st) = true →
       handle_state_change rules sess mem st env =
         ⟨Except.ok ({ sess with board := rebuildBoard st },
            updateMemoryOnGameOver (rules.result (rebuildBoard st))
              c opp mem), []⟩)
  ∧ (∀ res : String,
       (updateMemoryOnGameOver res c opp mem).lastOpponent = some opp
     ∧ ((updateMemoryOnGameOver res c opp mem).lastResult =
          some GResult.win ↔
          (res = "1-0" ∧ c = Color.white) ∨
          (res = "0-1" ∧ c = Color.black))
     ∧ ((updateMemoryOnGameOver res c opp mem).lastResult =
          some GResult.loss ↔
          (res = "1-0" ∧ c = Color.black) ∨
          (res = "0-1" ∧ c = Color.white))
     ∧ ((updateMemoryOnGameOver res c opp mem).lastResult =
          some GResult.draw ↔ (res ≠ "1-0" ∧ res ≠ "0-1"))
     ∧ (∀ x : String,
          x ∈ (updateMemoryOnGameOver res c opp mem).conqueredBots ↔
          (x ∈ mem.conqueredBots ∨ (x = opp ∧
            (updateMemoryOnGameOver res c opp mem).lastResult =
              some GResult.win))))
  ∧ (rules.isGameOver (rebuildBoard st) = false →
       ∀ s' m',
         (handle_state_change rules sess mem st env).outcome =
           Except.ok (s', m') → m' = mem) := by
  refine ⟨?_, ?_, ?_⟩
  · intro hgo
    obtain ⟨g, b0, mc, onm⟩ := sess
    obtain rfl : mc = some c := hc
    obtain rfl : onm = some opp := hopp
    simp [handle_state_change, hgo]
  · intro res
    by_cases h10 : res = "1-0" <;> by_cases h01 : res = "0-1" <;>
      cases c <;>
      simp_all [updateMemoryOnGameOver, List.mem_insert_iff] <;>
      tauto
  · intro hgo s' m' h
    rcases handle_ok_shape rules sess mem st env s' m' h with ⟨_, hm⟩
    rcases hm with hm | ⟨hgo', _⟩
    · exact hm
    · rw [hgo] at hgo'
      exact absurd hgo' (by simp)

/-- Witness for claim C1: a concrete terminal update processed by a
session playing white against OppBot records a win and leaves the
action trace empty. -/
theorem terminal_memory_update_witness :
    handle_state_change toyRules sessionW initialMemory stTerm envW =
      ⟨Except.ok ({ sessionW with board := rebuildBoard stTerm },
         updateMemoryOnGameOver (toyRules.result (rebuildBoard stTerm))
           Color.white "OppBot" initialMemory), []⟩ :=
  (terminal_memory_update toyRules sessionW initialMemory stTerm envW
    Color.white "OppBot" rfl rfl).1 (by decide)

/-- Claim C2: on a non-terminal update in which the opponent offers a
draw (white offering while the agent is black, or black offering while
the agent is white), the session queries the oracle evaluation of the
rebuilt position, attempts to accept the draw exactly when that
evaluation is strictly below 100 centipawns, and on a successful
acceptance stops with no move command sent. -/
theorem draw_offer_threshold (rules : ChessRules) (sess : Session)
    (mem : Memory) (st : StateUpdate) (env : Env) (c : Color)
    (hc : sess.myColor = some c)
    (hterm : rules.isGameOver (rebuildBoard st) = false)
    (hoff : ((c == Color.black) && st.wDraw ||
             (c == Color.white) && st.bDraw) = true) :
    AgentAction.oracleEval (rebuildBoard st) ∈
      (handle_state_change rules sess mem st env).actions
  ∧ (AgentAction.acceptDraw ∈
       (handle_state_change rules sess mem st env).actions ↔
       get_evaluation env.evalOut < 100)
  ∧ (get_evaluation env.evalOut < 100 → env.acceptDrawOk = true →
       handle_state_change rules sess mem st env =
         ⟨Except.ok ({ sess with board := rebuildBoard st }, mem),
          [AgentAction.oracleEval (rebuildBoard st),
           AgentAction.acceptDraw]⟩) := by
  obtain ⟨g, b0, mc, onm⟩ := sess
  obtain rfl : mc = some c := hc
  by_cases hcp : get_evaluation env.evalOut < 100
  · by_cases hok : env.acceptDrawOk = true
    · have he : handle_state_change rules ⟨g, b0, some c, onm⟩ mem st env =
        ⟨Except.ok (⟨g, rebuildBoard st, some c, onm⟩, mem),
         [AgentAction.oracleEval (rebuildBoard st),
          AgentAction.acceptDraw]⟩ := by
        simp [handle_state_change, hterm, hoff, hcp, hok]
      rw [he]
      exact ⟨by simp, by simp [hcp], fun _ _ => rfl⟩
    · have he : handle_state_change rules ⟨g, b0, some c, onm⟩ mem st env =
        movePhase rules ⟨g, rebuildBoard st, some c, onm⟩ mem
          (rebuildBoard st) env
          [AgentAction.oracleEval (rebuildBoard st),
           AgentAction.acceptDraw] := by
        simp [handle_state_change, hterm, hoff, hcp, hok]
      rw [he]
      refine ⟨?_, ?_, fun _ h2 => absurd h2 hok⟩
      · rw [mem_movePhase_actions] <;> simp
      · rw [mem_movePhase_actions] <;> simp [hcp]
  · have he : handle_state_change rules ⟨g, b0, some c, onm⟩ mem st env =
      movePhase rules ⟨g, rebuildBoard st, some c, onm⟩ mem
        (rebuildBoard st) env [AgentAction.oracleEval (rebuildBoard st)] := by
      simp [handle_state_change, hterm, hoff, hcp]
    rw [he]
    refine ⟨?_, ?_, fun h1 _ => absurd h1 hcp⟩
    · rw [mem_movePhase_actions] <;> simp
    · rw [mem_movePhase_actions] <;> simp [hcp]

/-- Witness for claim C2: with black offering a draw to a white session
and the oracle reporting exactly 100 centipawns, no acceptance attempt
appears in the trace (the threshold is strict). -/
theorem draw_offer_threshold_witness :
    AgentAction.acceptDraw ∉
      (handle_state_change toyRules sessionW initialMemory stDrawOffer
        envW).actions :=
  fun h =>
    absurd ((draw_offer_threshold toyRules sessionW initialMemory
      stDrawOffer envW Color.white rfl (by decide) (by decide)).2.1.mp h)
      (by decide)

/-- Claim C7: the position is rebuilt from scratch by sequentially
applying the full move list of the update to a fresh starting board;
the processing result is therefore independent of the previously held
board, and reprocessing the same update reproduces the identical
position (idempotent rebuild). -/
theorem rebuild_from_scratch (rules : ChessRules) (s1 s2 : Session)
    (mem : Memory) (st : StateUpdate) (env : Env)
    (hg : s1.gameId = s2.gameId) (hc : s1.myColor = s2.myColor)
    (ho : s1.opponentName = s2.opponentName) :
    rebuildBoard st = List.foldl pushUci startBoard st.moves
  ∧ handle_state_change rules s1 mem st env =
      handle_state_change rules s2 mem st env
  ∧ (∀ (s s' : Session) (m' : Memory),
       (handle_state_change rules s mem st env).outcome =
         Except.ok (s', m') → s'.board = rebuildBoard st)
  ∧ (∀ (s s' s'' : Session) (m' m'' : Memory) (env2 : Env) (mem2 : Memory),
       (handle_state_change rules s mem st env).outcome =
         Except.ok (s', m') →
       (handle_state_change rules s' mem2 st env2).outcome =
         Except.ok (s'', m'') →
       s''.board = s'.board) := by
  refine ⟨rfl, ?_, ?_, ?_⟩
  · obtain ⟨g1, b1, c1, o1⟩ := s1
    obtain ⟨g2, b2, c2, o2⟩ := s2
    obtain rfl : g1 = g2 := hg
    obtain rfl : c1 = c2 := hc
    obtain rfl : o1 = o2 := ho
    rfl
  · intro s s' m' h
    rcases handle_ok_shape rules s mem st env s' m' h with ⟨hs, _⟩
    rw [hs]
  · intro s s' s'' m' m'' env2 mem2 h1 h2
    rcases handle_ok_shape rules s mem st env s' m' h1 with ⟨hs1, _⟩
    rcases handle_ok_shape rules s' mem2 st env2 s'' m'' h2 with ⟨hs2, _⟩
    subst hs1
    subst hs2
    rfl

/-- Witness for claim C7: two sessions holding different stale boards
process the same update identically. -/
theorem rebuild_from_scratch_witness :
    handle_state_change toyRules sessionW initialMemory stOpen envW =
      handle_state_change toyRules
        ⟨"gid1", ⟨["d2d4"]⟩, some Color.white, some "OppBot"⟩
        initialMemory stOpen envW :=
  (rebuild_from_scratch toyRules sessionW
    ⟨"gid1", ⟨["d2d4"]⟩, some Color.white, some "OppBot"⟩
    initialMemory stOpen envW rfl rfl rfl).2.1

/-- Claim C8, amended: a session that processes a non-terminal state
update before any gameFull event (so the my_color attribute is missing)
raises AttributeError at the draw-offer check, before the turn check is
reached; the getattr white default of the turn check is therefore never
consulted with its default, and no move is computed or attempted. -/
theorem missing_color_attribute_error (rules : ChessRules)
    (sess : Session) (mem : Memory) (st : StateUpdate) (env : Env)
    (hc : sess.myColor = none)
    (hterm : rules.isGameOver (rebuildBoard st) = false) :
    handle_state_change rules sess mem st env =
      ⟨Except.error PyError.attributeError, []⟩ := by
  obtain ⟨g, b0, mc, onm⟩ := sess
  obtain rfl : mc = none := hc
  simp [handle_state_change, hterm]

/-- Counterexample to claim C8 as stated: a session with no gameFull
event processes a non-terminal update in which white is the side to
move (an even number of plies), yet it attempts no move at all; the
direct my_color read in the draw-offer logic raises AttributeError
first, so the trace is empty and the update ends in an exception. -/
theorem missing_color_no_move_counterexample :
    (handle_state_change toyRules sessionNoId initialMemory stOpen
       envW).actions = [] ∧
    (handle_state_change toyRules sessionNoId initialMemory stOpen
       envW).outcome = Except.error PyError.attributeError :=
  ⟨rfl, rfl⟩

/-- Witness for the amended claim C8 at a concrete identity-less
session and update. -/
theorem missing_color_attribute_error_witness :
    handle_state_change toyRules ⟨"gid3", startBoard, none, none⟩
      initialMemory stDrawOffer envW =
      ⟨Except.error PyError.attributeError, []⟩ :=
  missing_color_attribute_error toyRules ⟨"gid3", startBoard, none, none⟩
    initialMemory stDrawOffer envW rfl (by decide)

/-- Claim C9: whenever decide_move reaches its random fallback on a
position with no legal moves it raises (random.choice of an empty
list), and the session preserves the non-empty precondition because a
terminal update returns before any oracle call or move command: its
action trace is empty. -/
theorem empty_legal_moves_safety :
    (∀ (rules : ChessRules) (b : Board) (eng : EngineOutcome) (idx : Nat),
       rules.legalMoves b = [] → engineFallsBack rules eng = true →
       decide_move rules b eng idx = Except.error PyError.indexError)
  ∧ (∀ (rules : ChessRules) (sess : Session) (mem : Memory)
       (st : StateUpdate) (env : Env),
       rules.isGameOver (rebuildBoard st) = true →
       (handle_state_change rules sess mem st env).actions = []) := by
  constructor
  · intro rules b eng idx hleg hfb
    cases eng with
    | unavailable => simp [decide_move, choose, hleg]
    | raises => simp [decide_move, choose, hleg]
    | returns s =>
        cases s with
        | none => simp [decide_move, choose, hleg]
        | some str =>
            by_cases hs : str = ""
            · simp [decide_move, hs, choose, hleg]
            · have hnone : (rules.fromUci str).isNone = true := by
                simpa [engineFallsBack, hs] using hfb
              cases hp : rules.fromUci str with
              | some m => rw [hp] at hnone; simp at hnone
              | none => simp [decide_move, hs, hp, choose, hleg]
  · intro rules sess mem st env hgo
    obtain ⟨g, b0, mc, onm⟩ := sess
    cases onm <;> cases mc <;> simp [handle_state_change, hgo]

/-- Witness for claim C9: a concrete terminal board with no legal moves
on which the fallback raises, via the first part of the safety
theorem. -/
theorem empty_legal_moves_safety_witness :
    decide_move toyRules ⟨["e2e4", "e7e5", "d1h5", "e8e7"]⟩
      EngineOutcome.unavailable 5 = Except.error PyError.indexError :=
  empty_legal_moves_safety.1 toyRules ⟨["e2e4", "e7e5", "d1h5", "e8e7"]⟩
    EngineOutcome.unavailable 5 (by decide) rfl

/-- Claim C4: target-selection priority of the matchmaking loop.  After
a loss, a truthy last opponent found online (case-insensitively) is
selected regardless of the other bots; otherwise, when a fresh
non-last-opponent subset exists the target is drawn from it; and when
no fresh opponent exists the target is drawn from the full online
list. -/
theorem selectTarget_priority (mem : Memory) (v : List OnlineBot)
    (iA iB : Nat) (hNE : ∀ b ∈ v, b.username ≠ "") :
    (∀ (x : String) (bx : OnlineBot),
       mem.lastResult = some GResult.loss → mem.lastOpponent = some x →
       x ≠ "" →
       v.find? (fun b => pyLower b.username == pyLower x) = some bx →
       selectTarget mem v iA iB = some bx.username)
  ∧ (∀ x : String,
       pyTruthyStr (revengeTarget mem v) = false →
       mem.lastOpponent = some x → x ≠ "" →
       veryFreshOf mem v x ≠ [] →
       (selectTarget mem v iA iB).isSome = true ∧
       (selectTarget mem v iA iB).getD "" ∈
         (veryFreshOf mem v x).map OnlineBot.username)
  ∧ (pyTruthyStr (revengeTarget mem v) = false →
     freshOf mem v = [] → v ≠ [] →
     (selectTarget mem v iA iB).isSome = true ∧
     (selectTarget mem v iA iB).getD "" ∈ v.map OnlineBot.username) := by
  refine ⟨?_, ?_, ?_⟩
  · intro x bx hloss hlast hxne hfind
    have hbxmem : bx ∈ v := List.mem_of_find?_eq_some hfind
    have hbxne : bx.username ≠ "" := hNE bx hbxmem
    have ht1 : revengeTarget mem v = some bx.username := by
      simp [revengeTarget, hloss, hlast, hxne, hfind]
    simp [selectTarget, ht1, pyTruthyStr, hbxne]
  · intro x hrev hlast hxne hvf
    have hfne : freshOf mem v ≠ [] := by
      intro h0
      exact hvf (by simp [veryFreshOf, h0])
    obtain ⟨b, hb, hbmem⟩ :=
      choose_eq_some_of_ne_nil (veryFreshOf mem v x) iA hvf
    have hbv : b ∈ v :=
      List.mem_of_mem_filter (List.mem_of_mem_filter hbmem)
    have hbne : b.username ≠ "" := hNE b hbv
    have hfne2 : (freshOf mem v).isEmpty = false := by
      simpa [List.isEmpty_iff] using hfne
    have hvf2 : (veryFreshOf mem v x).isEmpty = false := by
      simpa [List.isEmpty_iff] using hvf
    have hcq : conquerorPick mem v iA = some b.username := by
      simp [conquerorPick, hfne2, hlast, hxne, hvf2, hb]
    have htr : pyTruthyStr (some b.username) = true := by
      simp [pyTruthyStr, hbne]
    have hsel : selectTarget mem v iA iB = some b.username := by
      simp [selectTarget, hcq, hrev, htr]
    exact ⟨by simp [hsel],
           by rw [hsel]; exact List.mem_map_of_mem _ hbmem⟩
  · intro hrev hfe hv
    obtain ⟨b, hb, hbmem⟩ := choose_eq_some_of_ne_nil v iA hv
    have hbne : b.username ≠ "" := hNE b hbmem
    have hfe2 : (freshOf mem v).isEmpty = true := by simp [hfe]
    have hcq : conquerorPick mem v iA = some b.username := by
      simp [conquerorPick, hfe2, hb]
    have htr : pyTruthyStr (some b.username) = true := by
      simp [pyTruthyStr, hbne]
    have hsel : selectTarget mem v iA iB = some b.username := by
      simp [selectTarget, hcq, hrev, htr]
    exact ⟨by simp [hsel],
           by rw [hsel]; exact List.mem_map_of_mem _ hbmem⟩

/-- Witness for claim C4, the example of the claim itself: online set
A (conquered), B (fresh), C (fresh but equal to the last opponent),
with the last game not lost: the selected target lies in the preferred
subset, which here is exactly B. -/
theorem selectTarget_priority_witness :
    (selectTarget ⟨some "C", some GResult.win, ["A"]⟩
       [⟨"A"⟩, ⟨"B"⟩, ⟨"C"⟩] 0 0).getD "" ∈
      (veryFreshOf ⟨some "C", some GResult.win, ["A"]⟩
        [⟨"A"⟩, ⟨"B"⟩, ⟨"C"⟩] "C").map OnlineBot.username :=
  ((selectTarget_priority ⟨some "C", some GResult.win, ["A"]⟩
      [⟨"A"⟩, ⟨"B"⟩, ⟨"C"⟩] 0 0 (by decide)).2.1 "C" (by decide) rfl
      (by decide) (by decide)).2

/-- Claim C6: a matchmaking iteration with at least one ongoing game,
or with no online opponent other than the agent itself, issues no
challenge and sleeps the busy interval of 60 seconds, so no challenge
is ever issued while a game is active. -/
theorem busy_or_alone_no_challenge (mem : Memory) (n : Nat)
    (bots : List OnlineBot) (u : String) (iA iB : Nat)
    (h : n ≠ 0 ∨
      (bots.filter
        (fun b => !(pyLower b.username == pyLower u))).isEmpty = true) :
    challengeIteration mem n bots u iA iB = ⟨none, 60⟩ := by
  rcases h with h | h
  · simp [challengeIteration, h]
  · by_cases hn : n = 0
    · subst hn
      simp [challengeIteration, h]
    · simp [challengeIteration, hn]

/-- Witness for claim C6: one ongoing game suppresses the challenge,
and an online list holding only the agent itself suppresses it too. -/
theorem busy_or_alone_no_challenge_witness :
    challengeIteration initialMemory 1 [⟨"FreshFoe"⟩] "me" 0 0 =
      ⟨none, 60⟩ ∧
    challengeIteration initialMemory 0 [⟨"Me"⟩] "me" 3 4 = ⟨none, 60⟩ :=
  ⟨busy_or_alone_no_challenge initialMemory 1 [⟨"FreshFoe"⟩] "me" 0 0
     (Or.inl (by decide)),
   busy_or_alone_no_challenge initialMemory 0 [⟨"Me"⟩] "me" 3 4
     (Or.inr (by decide))⟩

/-- Claim C5 (a code bug): on a gameStart event the router calls
GameHandler(client, game_id), passing two positional arguments to an
initializer that declares only game_id, so construction raises
TypeError and no session is ever constructed or started. -/
theorem dispatchGameStart_typeError :
    dispatchGameStart "abc12345" = Except.error PyError.typeError := rfl

/-- Claim C10: the gameFull handler assigns white exactly when the
lowercased white player id is the literal string surendhan, and black
for every other id, independently of the authenticated account. -/
theorem assignColor_white_iff (whiteId : Option String) :
    (assignColor whiteId = Color.white ↔
       pyLower (whiteId.getD "") = "surendhan")
  ∧ (assignColor whiteId = Color.black ↔
       pyLower (whiteId.getD "") ≠ "surendhan") := by
  unfold assignColor
  by_cases h : pyLower (whiteId.getD "") = "surendhan" <;> simp [h]
